import Mathlib

/-!
Verification of the image-source resolution core of the `brandoit` repository.

The embedded functions follow `src/services/imageSourceService.ts`,
`src/services/openaiService.ts` and the provider/refinement service file
(`src/unnamed/part_001`).  JavaScript strings are modelled as Lean `String`
(a list of characters); machine-level concerns do not arise.  JavaScript's
`toLowerCase` is modelled by `Char.toLower` (ASCII case mapping), which agrees
with JavaScript on all ASCII strings — every mime type and literal the code
manipulates is ASCII.
-/

namespace Brandoit

/-- The JavaScript whitespace class: the set matched by `\s` in a regular
expression, which is also exactly the set removed by `String.prototype.trim`
(ECMAScript WhiteSpace ∪ LineTerminator). -/
def isJsSpace (c : Char) : Bool :=
  c == ' ' || c == '\t' || c == '\n' || c == '\r' || c == '\x0b' || c == '\x0c' ||
  c == '\u00A0' || c == '\u1680' || ('\u2000' ≤ c && c ≤ '\u200A') ||
  c == '\u2028' || c == '\u2029' || c == '\u202F' || c == '\u205F' ||
  c == '\u3000' || c == '\uFEFF'

/-- JavaScript `String.prototype.trim`: drop leading and trailing whitespace. -/
def jsTrim (s : String) : String :=
  ⟨((s.data.dropWhile isJsSpace).reverse.dropWhile isJsSpace).reverse⟩

/-- JavaScript `str.replace(/\s+/g, '')`: remove every whitespace character. -/
def stripWs (s : String) : String :=
  ⟨s.data.filter (fun c => !isJsSpace c)⟩

/-- True iff the string contains no JavaScript whitespace character. -/
def noWhitespace (s : String) : Bool :=
  s.data.all (fun c => !isJsSpace c)

/-- JavaScript `String.prototype.toLowerCase`, restricted to the ASCII case
mapping (`Char.toLower`), which coincides with JavaScript on ASCII input. -/
def lowerStr (s : String) : String :=
  ⟨s.data.map Char.toLower⟩

/-- JavaScript `a || b` on strings: `a` when truthy (non-empty), else `b`. -/
def jsOr (a b : String) : String :=
  if a = "" then b else a

/-- Reading an optional (possibly `undefined`) string field the way the
source's `x || ''` / `typeof x === 'string' ? x : ''` coercions do. -/
def optStr (v : Option String) : String :=
  v.getD ""

/-!
### The data-URL regular expression

`imageSourceService.ts` line 5 (and the identical copy in the refinement
service) matches against

  `/^data:([^;,]+)?(?:;[^,]*)?;base64,(.+)$/i`

We compile this concrete regular expression to a deterministic matcher.
The compilation is justified as follows (ECMAScript backtracking semantics,
no `m`/`s` flags, so `$` is end-of-input and `.` excludes line terminators):

* the literal `data:` must match case-insensitively at the start;
* group 1 `([^;,]+)?` is greedy over characters other than `;`/`,`.  Every
  continuation of the pattern begins with the literal `;` (the optional
  parameter group or the `;base64,` literal), so giving back any character of
  group 1 — a character that is not `;` — can never help: group 1
  deterministically matches the maximal run of non-`;`/`,` characters;
* after that run the next character must be `;` (otherwise no continuation
  can match).  The optional group `(?:;[^,]*)?` then tries `;` followed by a
  prefix `t` of the maximal comma-free run after it, longest `t` first, and
  finally tries matching nothing, i.e. the literal `;base64,` is attempted at
  offsets `1 + |w|, …, 1, 0` into the remainder (where `w` is that maximal
  comma-free run), first success wins;
* group 2 `(.+)$` requires the rest of the input to be non-empty and free of
  line terminators.
-/

/-- Line terminators, the characters JavaScript's `.` never matches. -/
def isLineTerm (c : Char) : Bool :=
  c == '\n' || c == '\r' || c == '\u2028' || c == '\u2029'

/-- A character the regex class `[^;,]` accepts. -/
def notSemiComma (c : Char) : Bool :=
  c != ';' && c != ','

/-- A character JavaScript's `.` (no `s` flag) accepts. -/
def dotChar (c : Char) : Bool :=
  !isLineTerm c

/-- Case-insensitive match of one input character `c` against one pattern
character `p`, for the ASCII patterns of the `/i` regex: `c` matches `p`
exactly when it is `p` itself or, for a lowercase letter `p`, its uppercase
form. -/
def ciMatch (p c : Char) : Bool :=
  c == p || (('a' ≤ p && p ≤ 'z') && (c.toNat + 32 == p.toNat))

/-- Case-insensitive: does the input list start with the pattern list? -/
def ciStartsWith : List Char → List Char → Bool
  | [], _ => true
  | _ :: _, [] => false
  | p :: ps, c :: cs => ciMatch p c && ciStartsWith ps cs

/-- Group 2 of the regex: `(.+)$` — non-empty, no line terminators. -/
def validPayload (cs : List Char) : Bool :=
  !cs.isEmpty && cs.all dotChar

/-- Attempt the literal `;base64,` at the head of `u`, followed by `(.+)$`;
returns the payload on success. -/
def tryBase64At (u : List Char) : Option (List Char) :=
  if ciStartsWith (";base64,".data) u then
    let payload := u.drop 8
    if validPayload payload then some payload else none
  else none

/-- Backtracking of the optional parameter group: try the `;base64,` literal
at offsets `k + 1, k, …, 1` and finally `0` into `u`, in that order. -/
def tryParams (u : List Char) : Nat → Option (List Char)
  | 0 => (tryBase64At (u.drop 1)).orElse (fun _ => tryBase64At u)
  | k + 1 => (tryBase64At (u.drop (k + 2))).orElse (fun _ => tryParams u k)

/-- The part of the regex after the case-insensitive literal `data:`:
group 1 greedily takes the maximal `[^;,]` run, then the optional parameter
group and the `;base64,` literal are resolved by `tryParams`. -/
def matchAfterScheme (rest : List Char) : Option (String × String) :=
  let g1 := rest.takeWhile notSemiComma
  let u := rest.drop g1.length
  match u with
  | [] => none
  | c :: _ =>
    if c == ';' then
      let w := (u.drop 1).takeWhile (fun a => a != ',')
      match tryParams u w.length with
      | some payload => some (⟨g1⟩, ⟨payload⟩)
      | none => none
    else none

/-- The compiled regex `/^data:([^;,]+)?(?:;[^,]*)?;base64,(.+)$/i`:
returns `(group 1 or "", group 2)` on a match. -/
def matchDataUrl (s : String) : Option (String × String) :=
  if ciStartsWith ("data:".data) s.data then matchAfterScheme (s.data.drop 5)
  else none

/-- The canonical `{ mimeType, base64Data }` pair. -/
structure ImagePayload where
  mimeType : String
  base64Data : String
deriving DecidableEq, Repr

/-- Model of `parseDataUrl`, `imageSourceService.ts` lines 7–15 (the refinement
service holds a character-identical copy): `null` for a falsy argument or a
non-match, else the lower-cased mime group (empty string when the group is
absent) and the payload group. -/
def parseDataUrl (value : String) : Option ImagePayload :=
  if value = "" then none
  else
    match matchDataUrl value with
    | none => none
    | some (m, p) => some { mimeType := lowerStr m, base64Data := p }

/-!
### The payload normalizer (`getImagePayload`, imageSourceService.ts 27–68)
-/

/-- The loosely-typed `ImageSource` record: the three canonical fields of
`GeneratedImage` plus the legacy/provider aliases the normalizer probes.
A field that is absent, or present with a non-string value (the source's
`typeof x === 'string'` guards make those behave identically), is `none`. -/
structure ImageSource where
  imageUrl : Option String := none
  base64Data : Option String := none
  mimeType : Option String := none
  base64 : Option String := none
  b64_json : Option String := none
  b64Json : Option String := none
  imageBytes : Option String := none
  mime : Option String := none
  contentType : Option String := none
deriving DecidableEq, Repr

/-- Lines 30–36: the first truthy value among `base64Data`, `base64`,
`b64_json`, `b64Json`, `imageBytes`, then `.trim()`. -/
def collectRawBase64 (image : ImageSource) : String :=
  jsTrim (jsOr (optStr image.base64Data) (jsOr (optStr image.base64)
    (jsOr (optStr image.b64_json) (jsOr (optStr image.b64Json)
      (optStr image.imageBytes)))))

/-- Lines 38–42: the first truthy value among `mimeType`, `mime`,
`contentType`, then `.trim().toLowerCase()`. -/
def collectRawMime (image : ImageSource) : String :=
  lowerStr (jsTrim (jsOr (optStr image.mimeType) (jsOr (optStr image.mime)
    (optStr image.contentType))))

/-- Model of `getImagePayload`, imageSourceService.ts lines 27–68. -/
def getImagePayload (image : ImageSource) : Option ImagePayload :=
  let rawBase64 := collectRawBase64 image
  let rawMimeType := collectRawMime image
  let parsedInline :=
    match parseDataUrl rawBase64 with
    | some pr => if pr.base64Data = "" then none else some pr
    | none => none
  match parsedInline with
  | some pr =>
    some { base64Data := pr.base64Data
           mimeType := jsOr pr.mimeType (jsOr rawMimeType "image/png") }
  | none =>
    if rawBase64 = "" then
      match parseDataUrl (jsTrim (optStr image.imageUrl)) with
      | some pu =>
        if pu.base64Data = "" then none
        else
          some { base64Data := pu.base64Data
                 mimeType := jsOr pu.mimeType (jsOr rawMimeType "image/png") }
      | none => none
    else
      some { base64Data := rawBase64, mimeType := jsOr rawMimeType "image/png" }

/-!
### The base64 decoder (`decodeBase64ToBytes`, imageSourceService.ts 17–25)

`atob` performs the WHATWG forgiving-base64 decode: remove ASCII whitespace,
strip one trailing padding group when the length is a multiple of four, fail
on a remainder of one or on a character outside the base64 alphabet, and emit
`⌊6·n/8⌋` bytes, discarding leftover bits.
-/

/-- The value of one base64 alphabet character. -/
def b64CharVal (c : Char) : Option Nat :=
  if 'A' ≤ c && c ≤ 'Z' then some (c.toNat - 65)
  else if 'a' ≤ c && c ≤ 'z' then some (c.toNat - 97 + 26)
  else if '0' ≤ c && c ≤ '9' then some (c.toNat - 48 + 52)
  else if c == '+' then some 62
  else if c == '/' then some 63
  else none

/-- ASCII whitespace, the set forgiving-base64 removes. -/
def isAsciiWs (c : Char) : Bool :=
  c == '\t' || c == '\n' || c == '\x0c' || c == '\r' || c == ' '

/-- Strip one final `=` or `==` when the length is a multiple of four. -/
def stripPad (cs : List Char) : List Char :=
  if cs.length % 4 = 0 then
    match cs.reverse with
    | '=' :: '=' :: rest => rest.reverse
    | '=' :: rest => rest.reverse
    | _ => cs
  else cs

/-- Turn a stream of 6-bit values into bytes, 4 values to 3 bytes, with the
2- and 3-value tails of forgiving-base64 (leftover bits discarded). -/
def decodeVals : List Nat → Option (List Nat)
  | [] => some []
  | [_] => none
  | [a, b] => some [a * 4 + b / 16]
  | [a, b, c] => some [a * 4 + b / 16, (b % 16) * 16 + c / 4]
  | a :: b :: c :: d :: rest =>
    match decodeVals rest with
    | some tail => some ([a * 4 + b / 16, (b % 16) * 16 + c / 4, (c % 4) * 64 + d] ++ tail)
    | none => none

/-- Model of the `atob` builtin (WHATWG forgiving-base64 decode); `none`
models the thrown `InvalidCharacterError`. -/
def atobModel (s : String) : Option (List Nat) :=
  let ws := s.data.filter (fun c => !isAsciiWs c)
  let cs := stripPad ws
  if cs.length % 4 = 1 then none
  else
    match cs.mapM b64CharVal with
    | some vals => decodeVals vals
    | none => none

/-- Model of `decodeBase64ToBytes`, imageSourceService.ts lines 17–25: strip all
whitespace (`replace(/\s+/g, '')`), then `atob` and read the byte values. -/
def decodeBase64ToBytes (rawBase64 : String) : Option (List Nat) :=
  atobModel (stripWs rawBase64)

/-!
### Provider A's aspect-ratio mapping (`aspectToSize`, openaiService.ts 6–20)
-/

/-- Model of `aspectToSize`, openaiService.ts lines 6–20: a `switch` whose `'1:1'`
and `default` arms share the `'1024x1024'` result. -/
def aspectToSize (aspect : String) : String :=
  if aspect = "16:9" then "1792x1024"
  else if aspect = "9:16" then "1024x1792"
  else if aspect = "4:3" then "1392x1024"
  else if aspect = "3:4" then "1024x1392"
  else "1024x1024"

/-!
### The refinement input resolver (`resolveImageInputForRefinement`,
refinement service lines 433–474) and its fetch helper (lines 421–431)

Network I/O is modelled by passing the outcome the single possible `fetch`
call would have: `none` for a rejected promise (network error), otherwise the
response's `ok` flag, status, body bytes and blob content type.  The
`FileReader.readAsDataURL` round trip inside `blobToBase64` (lines 404–419)
yields exactly the base64 encoding of the blob's bytes, and rejects exactly
when that encoding is the empty string (an empty payload fails the data-URL
regex); it is modelled by `encodeBase64` directly.  Browsers expose
`Blob.type` in ASCII lowercase; the model carries the declared type as given.
The resolver result is paired with the number of fetches performed.
-/

/-- The canonical fields of a `GeneratedImage` record (types.ts), all
optional strings at the call sites the resolver handles. -/
structure GeneratedImage where
  imageUrl : Option String := none
  base64Data : Option String := none
  mimeType : Option String := none
deriving DecidableEq, Repr

/-- Outcome of the (at most one) `fetch(imageUrl)` call. -/
structure FetchResponse where
  ok : Bool
  status : Nat
  bodyBytes : List Nat
  blobType : String
deriving DecidableEq, Repr

/-- The standard base64 alphabet. -/
def b64Alphabet : List Char :=
  "ABCDEFGHIJKLMNOPQRSTUVWXYZabcdefghijklmnopqrstuvwxyz0123456789+/".data

/-- Digit `n` of the base64 alphabet. -/
def b64Digit (n : Nat) : Char :=
  b64Alphabet.getD n 'A'

/-- Standard base64 encoding of a byte list (character list form). -/
def encodeB64Chars : List Nat → List Char
  | [] => []
  | [a] => [b64Digit (a / 4), b64Digit (a % 4 * 16), '=', '=']
  | [a, b] => [b64Digit (a / 4), b64Digit (a % 4 * 16 + b / 16), b64Digit (b % 16 * 4), '=']
  | a :: b :: c :: rest =>
    b64Digit (a / 4) :: b64Digit (a % 4 * 16 + b / 16) ::
      b64Digit (b % 16 * 4 + c / 64) :: b64Digit (c % 64) :: encodeB64Chars rest

/-- Standard base64 encoding of a byte list. -/
def encodeBase64 (bs : List Nat) : String :=
  ⟨encodeB64Chars bs⟩

/-- The error taxonomy of the resolver path. -/
inductive ResolveError where
  /-- Thrown when `fetch` itself rejected (network error). -/
  | networkError : ResolveError
  /-- Error `Failed to fetch source image (status).` — non-ok response. -/
  | fetchFailed (status : Nat) : ResolveError
  /-- Error `Failed to convert image blob to base64.` -/
  | blobConvertFailed : ResolveError
  /-- Error `Source image data is unavailable for refinement. Please restore
  a recent image or generate it again.` — the SourceUnavailableError. -/
  | sourceUnavailable : ResolveError
deriving DecidableEq, Repr

/-- Model of `fetchImageAsBase64`, refinement service lines 421–431. -/
def fetchImageAsBase64 (resp : Option FetchResponse) :
    Except ResolveError ImagePayload :=
  match resp with
  | none => .error .networkError
  | some r =>
    if !r.ok then .error (.fetchFailed r.status)
    else
      let b64 := encodeBase64 r.bodyBytes
      if b64 = "" then .error .blobConvertFailed
      else .ok { mimeType := lowerStr (jsOr r.blobType "image/png"), base64Data := b64 }

/-- The provider's supported refine-input mime types (refinement service
lines 7–13); membership only drives a non-fatal `console.warn`, which has no
effect on the returned value and is not modelled further. -/
def SUPPORTED_INPUT_IMAGE_MIME_TYPES : List String :=
  ["image/png", "image/jpeg", "image/webp", "image/heic", "image/heif"]

/-- Final steps of the resolver (lines 459–473): fail with the
SourceUnavailableError when no base64 payload was obtained, otherwise strip
all whitespace from it and default the mime type to `image/png`. -/
def finishResolve (b m : String) : Except ResolveError ImagePayload :=
  if b = "" then .error .sourceUnavailable
  else .ok { mimeType := jsOr m "image/png", base64Data := stripWs b }

/-- Model of `resolveImageInputForRefinement`, refinement service lines
433–474, returning the result together with the number of fetches issued. -/
def resolveImageInputForRefinement (currentImage : GeneratedImage)
    (resp : Option FetchResponse) : Except ResolveError ImagePayload × Nat :=
  let base64Data0 := jsTrim (optStr currentImage.base64Data)
  let mimeType0 := lowerStr (jsTrim (optStr currentImage.mimeType))
  let afterInline :=
    match parseDataUrl base64Data0 with
    | some pr => (pr.base64Data, jsOr pr.mimeType mimeType0)
    | none => (base64Data0, mimeType0)
  let imageUrl := jsTrim (optStr currentImage.imageUrl)
  if (afterInline.1 = "" ∨ afterInline.2 = "") ∧ imageUrl ≠ "" then
    match parseDataUrl imageUrl with
    | some pu =>
      (finishResolve (jsOr afterInline.1 pu.base64Data)
        (jsOr afterInline.2 pu.mimeType), 0)
    | none =>
      match fetchImageAsBase64 resp with
      | .error e => (.error e, 1)
      | .ok f =>
        (finishResolve (jsOr afterInline.1 f.base64Data)
          (jsOr afterInline.2 f.mimeType), 1)
  else
    (finishResolve afterInline.1 afterInline.2, 0)

/-!
### Provider B's response adapter (`extractImageFromResponse`, refinement
service lines 477–510)
-/

/-- An inline-binary blob inside a response part. -/
structure InlineData where
  data : String
  mimeType : Option String := none
deriving DecidableEq, Repr

/-- One content part of a candidate: inline binary data and/or text. -/
structure Part where
  inlineData : Option InlineData := none
  text : Option String := none
deriving DecidableEq, Repr

/-- Wrapper `content` of a candidate. -/
structure Content where
  parts : List Part
deriving DecidableEq, Repr

/-- One candidate output. -/
structure Candidate where
  content : Content
deriving DecidableEq, Repr

/-- A provider-B generation response. -/
structure GenResponse where
  candidates : List Candidate
deriving DecidableEq, Repr

/-- The adapter's error taxonomy. -/
inductive ExtractError where
  /-- Error `No candidates returned from API.` -/
  | noCandidates : ExtractError
  /-- Error `Model returned text instead of image: <text>` -/
  | textInstead (text : String) : ExtractError
  /-- Error `No image data found in response.` — the protocol violation. -/
  | noImageData : ExtractError
deriving DecidableEq, Repr

/-- Model of the for-loop of lines 485–490: first part with inline data. -/
def firstInline : List Part → Option InlineData
  | [] => none
  | p :: rest =>
    match p.inlineData with
    | some d => some d
    | none => firstInline rest

/-- Model of `parts.find(p => p.text)`, line 494: the first truthy text. -/
def firstTruthyText : List Part → Option String
  | [] => none
  | p :: rest =>
    if optStr p.text = "" then firstTruthyText rest else some (optStr p.text)

/-- Model of `extractImageFromResponse`, refinement service lines 477–510. -/
def extractImageFromResponse (response : GenResponse) :
    Except ExtractError GeneratedImage :=
  match response.candidates with
  | [] => .error .noCandidates
  | first :: _ =>
    let parts := first.content.parts
    match firstInline parts with
    | some d =>
      let mimeType := jsOr (optStr d.mimeType) "image/png"
      let base64Data := d.data
      .ok { imageUrl := some ("data:" ++ mimeType ++ ";base64," ++ base64Data)
            base64Data := some base64Data
            mimeType := some mimeType }
    | none =>
      match firstTruthyText parts with
      | some t => .error (.textInstead t)
      | none => .error .noImageData

/-!
### Helper lemmas
-/

theorem data_append (s t : String) : (s ++ t).data = s.data ++ t.data := rfl

theorem mk_data (s : String) : (⟨s.data⟩ : String) = s := rfl

theorem ciMatch_self (p : Char) : ciMatch p p = true := by
  simp [ciMatch]

theorem ciStartsWith_append (pat tail : List Char) :
    ciStartsWith pat (pat ++ tail) = true := by
  induction pat with
  | nil => rfl
  | cons p ps ih => simp [ciStartsWith, ciMatch_self, ih]

theorem takeWhile_append_all {α} (q : α → Bool) (xs ys : List α)
    (h : ∀ a ∈ xs, q a = true) :
    (xs ++ ys).takeWhile q = xs ++ ys.takeWhile q := by
  induction xs with
  | nil => simp
  | cons a as ih =>
    have ha : q a = true := h a (by simp)
    have hrest : ∀ b ∈ as, q b = true := fun b hb => h b (by simp [hb])
    simp [List.takeWhile_cons, ha, ih hrest]

theorem string_ne_empty_of_data_ne {s : String} (h : s.data ≠ []) : s ≠ "" := by
  intro he
  exact h (by rw [he])

theorem mk_ne_empty_iff (l : List Char) : (⟨l⟩ : String) ≠ "" ↔ l ≠ [] := by
  constructor
  · intro h hl
    exact h (by rw [hl])
  · intro h he
    exact h (congrArg String.data he)

theorem jsOr_cases (a b : String) : jsOr a b = a ∨ jsOr a b = b := by
  unfold jsOr
  split
  · right; rfl
  · left; rfl

theorem jsTrim_empty : jsTrim "" = "" := rfl

theorem jsTrim_jsOr {a b : String} (ha : jsTrim a = "") (hb : jsTrim b = "") :
    jsTrim (jsOr a b) = "" := by
  rcases jsOr_cases a b with h | h <;> rw [h] <;> assumption

theorem tryBase64At_payload_ne {u pl : List Char} (h : tryBase64At u = some pl) :
    pl ≠ [] := by
  simp only [tryBase64At] at h
  split at h
  · split at h
    · rename_i hv
      cases h
      unfold validPayload at hv
      intro hnil
      rw [hnil] at hv
      simp at hv
    · exact absurd h (by simp)
  · exact absurd h (by simp)

theorem tryParams_payload_ne {u : List Char} {k : Nat} {pl : List Char}
    (h : tryParams u k = some pl) : pl ≠ [] := by
  induction k with
  | zero =>
    unfold tryParams at h
    cases ha : tryBase64At (u.drop 1) with
    | some x =>
      rw [ha] at h
      simp [Option.orElse] at h
      exact h ▸ tryBase64At_payload_ne ha
    | none =>
      rw [ha] at h
      simp [Option.orElse] at h
      exact tryBase64At_payload_ne h
  | succ n ih =>
    unfold tryParams at h
    cases ha : tryBase64At (u.drop (n + 2)) with
    | some x =>
      rw [ha] at h
      simp [Option.orElse] at h
      exact h ▸ tryBase64At_payload_ne ha
    | none =>
      rw [ha] at h
      simp [Option.orElse] at h
      exact ih h

theorem matchAfterScheme_payload_ne {rest : List Char} {m p : String}
    (h : matchAfterScheme rest = some (m, p)) : p ≠ "" := by
  simp only [matchAfterScheme] at h
  split at h
  · exact absurd h (by simp)
  · split at h
    · split at h
      · rename_i heq
        cases h
        rw [mk_ne_empty_iff]
        exact tryParams_payload_ne heq
      · exact absurd h (by simp)
    · exact absurd h (by simp)

theorem matchDataUrl_payload_ne {s : String} {m p : String}
    (h : matchDataUrl s = some (m, p)) : p ≠ "" := by
  simp only [matchDataUrl] at h
  split at h
  · exact matchAfterScheme_payload_ne h
  · exact absurd h (by simp)

theorem parseDataUrl_base64Data_ne {v : String} {pr : ImagePayload}
    (h : parseDataUrl v = some pr) : pr.base64Data ≠ "" := by
  unfold parseDataUrl at h
  split at h
  · exact absurd h (by simp)
  · cases hm : matchDataUrl v with
    | none => rw [hm] at h; exact absurd h (by simp)
    | some mp =>
      rw [hm] at h
      cases mp with
      | mk m p =>
        cases h
        exact matchDataUrl_payload_ne hm

theorem parseDataUrl_empty : parseDataUrl "" = none := rfl

theorem stripWs_idem (s : String) : stripWs (stripWs s) = stripWs s := by
  unfold stripWs
  congr 1
  simp [List.filter_filter]

/-!
### Claim C7 — the aspect-ratio-to-size mapping
-/

/-- C7: `aspectToSize` is a total deterministic function realising exactly the
mapping 1:1 → 1024x1024, 16:9 → 1792x1024, 9:16 → 1024x1792, 4:3 → 1392x1024,
3:4 → 1024x1392; every other input falls back to 1:1's size, and every output
is one of the enumerated literal size strings. -/
theorem aspectToSize_total_mapping :
    (aspectToSize "1:1" = "1024x1024" ∧ aspectToSize "16:9" = "1792x1024" ∧
     aspectToSize "9:16" = "1024x1792" ∧ aspectToSize "4:3" = "1392x1024" ∧
     aspectToSize "3:4" = "1024x1392") ∧
    (∀ a : String,
      aspectToSize a ∈
        ["1024x1024", "1792x1024", "1024x1792", "1392x1024", "1024x1392"]) ∧
    (∀ a : String, a ≠ "16:9" → a ≠ "9:16" → a ≠ "4:3" → a ≠ "3:4" →
      aspectToSize a = "1024x1024") := by
  refine ⟨⟨rfl, rfl, rfl, rfl, rfl⟩, ?_, ?_⟩
  · intro a
    unfold aspectToSize
    split_ifs <;> simp
  · intro a h1 h2 h3 h4
    unfold aspectToSize
    rw [if_neg h1, if_neg h2, if_neg h3, if_neg h4]

/-- Witness for C7: the unrecognized input "21:9" falls back to 1024x1024. -/
theorem aspectToSize_total_mapping_witness : aspectToSize "21:9" = "1024x1024" :=
  aspectToSize_total_mapping.2.2 "21:9" (by decide) (by decide) (by decide)
    (by decide)

/-!
### Claim C9 — whitespace-insensitivity of the base64 decoder
-/

/-- C9: decoding a base64 string yields exactly the same result — the same
byte list on success, the same failure otherwise — as decoding the string
with all whitespace characters stripped. -/
theorem decodeBase64ToBytes_stripWs (s : String) :
    decodeBase64ToBytes (stripWs s) = decodeBase64ToBytes s := by
  unfold decodeBase64ToBytes
  rw [stripWs_idem]

/-!
### Claim C1 — parsing well-formed data URLs
-/

/-- Counterexample for C1 as stated: the well-formed data URL
`data:IMAGE/GIF;base64,QUJD` parses successfully, but the mime type is
returned lower-cased, not character-for-character unchanged. -/
theorem parseDataUrl_uppercase_mime_lowered :
    parseDataUrl "data:IMAGE/GIF;base64,QUJD" =
      some { mimeType := "image/gif", base64Data := "QUJD" } ∧
    ("image/gif" : String) ≠ "IMAGE/GIF" := by
  exact ⟨by decide, by decide⟩

/-!
### Claim C2 — embedded mime type wins over the sibling field
-/

/-- C2: whenever the collected base64 candidate of an `ImageSource` is itself
a data URL whose embedded mime type is non-empty, `getImagePayload` unwraps
it and returns exactly the parsed payload — so the embedded mime type takes
priority over the sibling `mimeType` field. -/
theorem getImagePayload_embedded_mime_priority (src : ImageSource)
    (pr : ImagePayload) (hparse : parseDataUrl (collectRawBase64 src) = some pr)
    (hmime : pr.mimeType ≠ "") :
    getImagePayload src = some pr := by
  have hb := parseDataUrl_base64Data_ne hparse
  simp only [getImagePayload, hparse, hb, if_neg hb]
  simp [jsOr, hmime, hb]

/-- Witness for C2: the spec's example
`{base64Data: "data:image/jpeg;base64,ABC", mimeType: "image/png"}`
normalizes to `{mimeType: "image/jpeg", base64Data: "ABC"}`. -/
theorem getImagePayload_embedded_mime_priority_witness :
    getImagePayload { base64Data := some "data:image/jpeg;base64,ABC",
                      mimeType := some "image/png" } =
      some { mimeType := "image/jpeg", base64Data := "ABC" } :=
  getImagePayload_embedded_mime_priority
    { base64Data := some "data:image/jpeg;base64,ABC",
      mimeType := some "image/png" }
    { mimeType := "image/jpeg", base64Data := "ABC" } (by decide) (by decide)

/-!
### Claim C6 — the normalizer returns null when nothing is usable
-/

/-- C6: when none of the five base64 alias fields holds a non-empty string
after trimming and `imageUrl` (trimmed, empty when absent) is not a parseable
data URL, `getImagePayload` returns null. -/
theorem getImagePayload_none_of_no_source (src : ImageSource)
    (h1 : jsTrim (optStr src.base64Data) = "")
    (h2 : jsTrim (optStr src.base64) = "")
    (h3 : jsTrim (optStr src.b64_json) = "")
    (h4 : jsTrim (optStr src.b64Json) = "")
    (h5 : jsTrim (optStr src.imageBytes) = "")
    (hurl : parseDataUrl (jsTrim (optStr src.imageUrl)) = none) :
    getImagePayload src = none := by
  have hcollect : collectRawBase64 src = "" := by
    unfold collectRawBase64
    exact jsTrim_jsOr h1 (jsTrim_jsOr h2 (jsTrim_jsOr h3 (jsTrim_jsOr h4 h5)))
  simp only [getImagePayload, hcollect, parseDataUrl_empty, hurl]
  simp

/-- Witness for C6: `getImagePayload {}` is null. -/
theorem getImagePayload_none_of_no_source_witness :
    getImagePayload {} = none :=
  getImagePayload_none_of_no_source {} (by decide) (by decide) (by decide)
    (by decide) (by decide) (by decide)

theorem data_ne_of_ne_empty {s : String} (h : s ≠ "") : s.data ≠ [] := by
  intro hd
  exact h (by rw [← mk_data s, hd])

theorem tryBase64At_not_semi {c : Char} (hc : ciMatch ';' c = false)
    (cs : List Char) : tryBase64At (c :: cs) = none := by
  have hsb : (";base64,".data : List Char) = ';' :: "base64,".data := rfl
  simp only [tryBase64At, hsb, ciStartsWith, hc]
  simp

theorem tryBase64At_exact (pd : List Char) (hp : pd ≠ [])
    (hpd : ∀ c ∈ pd, dotChar c = true) :
    tryBase64At (";base64,".data ++ pd) = some pd := by
  have hdrop : (";base64,".data ++ pd).drop 8 = pd := by
    have h8 : (";base64,".data : List Char).length = 8 := rfl
    rw [← h8, List.drop_left]
  have hv : validPayload pd = true := by
    cases pd with
    | nil => exact absurd rfl hp
    | cons a l =>
      simp only [validPayload, List.isEmpty_cons, Bool.not_false, Bool.true_and]
      rw [List.all_eq_true]
      intro x hx
      exact hpd x hx
  simp only [tryBase64At, ciStartsWith_append, if_pos rfl, hdrop, hv, if_pos rfl]
  simp

theorem matchAfterScheme_eq (md pd : List Char)
    (hm : ∀ c ∈ md, notSemiComma c = true)
    (hv : validPayload pd = true) :
    matchAfterScheme
        (md ++ (';' :: 'b' :: 'a' :: 's' :: 'e' :: '6' :: '4' :: ',' :: pd))
      = some (⟨md⟩, ⟨pd⟩) := by
  have h1 : List.takeWhile notSemiComma
      (md ++ (';' :: 'b' :: 'a' :: 's' :: 'e' :: '6' :: '4' :: ',' :: pd))
      = md := by
    rw [takeWhile_append_all notSemiComma md _ hm]
    simp [List.takeWhile_cons, notSemiComma]
  simp only [matchAfterScheme, h1, List.drop_left]
  show (match (if validPayload pd = true then some pd else none) with
    | some payload => some ((⟨md⟩ : String), (⟨payload⟩ : String))
    | none => none) = some (⟨md⟩, ⟨pd⟩)
  rw [if_pos hv]

theorem matchDataUrl_wellformed (m p : String)
    (hm : ∀ c ∈ m.data, notSemiComma c = true)
    (hp : p.data ≠ [])
    (hpd : ∀ c ∈ p.data, dotChar c = true) :
    matchDataUrl ("data:" ++ m ++ ";base64," ++ p) = some (m, p) := by
  have hdata : ("data:" ++ m ++ ";base64," ++ p).data
      = "data:".data ++
          (m.data ++ (';' :: 'b' :: 'a' :: 's' :: 'e' :: '6' :: '4' :: ','
            :: p.data)) := by
    rw [data_append, data_append, data_append, List.append_assoc,
      List.append_assoc]
    rfl
  have hv : validPayload p.data = true := by
    cases hc : p.data with
    | nil => exact absurd hc hp
    | cons a l =>
      simp only [validPayload, List.isEmpty_cons, Bool.not_false, Bool.true_and]
      rw [List.all_eq_true]
      intro x hx
      exact hpd x (by rw [hc]; exact hx)
  have hd5 : ("data:".data : List Char).length = 5 := rfl
  simp only [matchDataUrl, hdata]
  rw [if_pos (ciStartsWith_append "data:".data _), ← hd5, List.drop_left]
  exact matchAfterScheme_eq m.data p.data hm hv

/-- C1 (amended): for every data URL `data:<mime>;base64,<payload>` in which
the mime contains no `;` or `,` and is already lower-case and the payload is
non-empty and free of line terminators, parsing succeeds and yields exactly
the embedded mime and payload. -/
theorem parseDataUrl_wellformed_roundtrip (m p : String)
    (hm : ∀ c ∈ m.data, notSemiComma c = true)
    (hlower : lowerStr m = m)
    (hp : p ≠ "")
    (hpd : ∀ c ∈ p.data, dotChar c = true) :
    parseDataUrl ("data:" ++ m ++ ";base64," ++ p)
      = some { mimeType := m, base64Data := p } := by
  have hmatch := matchDataUrl_wellformed m p hm (data_ne_of_ne_empty hp) hpd
  have hne : ("data:" ++ m ++ ";base64," ++ p) ≠ "" := by
    apply string_ne_empty_of_data_ne
    have : ("data:" ++ m ++ ";base64," ++ p).data
        = "data:".data ++ (m.data ++ (";base64,".data ++ p.data)) := by
      simp [data_append, List.append_assoc]
    rw [this]
    have hd : ("data:".data : List Char) = ['d', 'a', 't', 'a', ':'] := rfl
    rw [hd]
    simp
  simp only [parseDataUrl, if_neg hne, hmatch, hlower]

/-- Witness for C1 (amended): `data:image/webp;base64,SGVsbG8=` parses back
to exactly `image/webp` and `SGVsbG8=`. -/
theorem parseDataUrl_wellformed_roundtrip_witness :
    parseDataUrl ("data:" ++ "image/webp" ++ ";base64," ++ "SGVsbG8=")
      = some { mimeType := "image/webp", base64Data := "SGVsbG8=" } :=
  parseDataUrl_wellformed_roundtrip "image/webp" "SGVsbG8=" (by decide)
    (by decide) (by decide) (by decide)

theorem eq_comma_of_ciMatch {c : Char} (h : ciMatch ',' c = true) : c = ',' := by
  rcases Bool.or_eq_true_iff.mp h with h1 | h2
  · exact eq_of_beq h1
  · rw [Bool.and_eq_true] at h2
    exact absurd h2.1 (by decide)

theorem mem_of_ciStartsWith {pat u : List Char} (h : ciStartsWith pat u = true) :
    ∀ q ∈ pat, ∃ c ∈ u, ciMatch q c = true := by
  induction pat generalizing u with
  | nil => intro q hq; exact absurd hq (by simp)
  | cons a as ih =>
    cases u with
    | nil => exact absurd h (by simp [ciStartsWith])
    | cons b bs =>
      simp only [ciStartsWith, Bool.and_eq_true] at h
      intro q hq
      rcases List.mem_cons.mp hq with rfl | hq2
      · exact ⟨b, by simp, h.1⟩
      · obtain ⟨c, hc, hm⟩ := ih h.2 q hq2
        exact ⟨c, by simp [hc], hm⟩

theorem tryBase64At_none_of_no_comma {u : List Char}
    (h : ∀ c ∈ u, c ≠ ',') : tryBase64At u = none := by
  cases hc : ciStartsWith ";base64,".data u with
  | false => simp [tryBase64At, hc]
  | true =>
    exfalso
    obtain ⟨c, hcu, hm⟩ := mem_of_ciStartsWith hc ',' (by decide)
    exact h c hcu (eq_comma_of_ciMatch hm)

theorem tryParams_none_of_no_comma {u : List Char} (k : Nat)
    (h : ∀ c ∈ u, c ≠ ',') : tryParams u k = none := by
  have hdrop : ∀ n, ∀ c ∈ u.drop n, c ≠ ',' :=
    fun n c hc => h c (List.drop_subset n u hc)
  induction k with
  | zero =>
    simp only [tryParams]
    rw [tryBase64At_none_of_no_comma (hdrop 1), tryBase64At_none_of_no_comma h]
    rfl
  | succ n ih =>
    simp only [tryParams]
    rw [tryBase64At_none_of_no_comma (hdrop (n + 2)), ih]
    rfl

theorem matchAfterScheme_none_of_no_comma (rest : List Char)
    (h : ∀ c ∈ rest, c ≠ ',') : matchAfterScheme rest = none := by
  have hu : ∀ c ∈ rest.drop (rest.takeWhile notSemiComma).length, c ≠ ',' :=
    fun c hc => h c (List.drop_subset _ rest hc)
  simp only [matchAfterScheme]
  split
  · rfl
  · rename_i c tail heq
    split
    · rw [tryParams_none_of_no_comma _ (heq ▸ hu)]
    · rfl

theorem matchDataUrl_none_of_no_comma (s : String)
    (h : ∀ c ∈ s.data, c ≠ ',') : matchDataUrl s = none := by
  simp only [matchDataUrl]
  split
  · exact matchAfterScheme_none_of_no_comma _
      (fun c hc => h c (List.drop_subset 5 s.data hc))
  · rfl

theorem parseDataUrl_none_of_no_comma (s : String)
    (h : ∀ c ∈ s.data, c ≠ ',') : parseDataUrl s = none := by
  unfold parseDataUrl
  split
  · rfl
  · rw [matchDataUrl_none_of_no_comma s h]

theorem dotChar_of_not_space {c : Char} (h : isJsSpace c = false) :
    dotChar c = true := by
  simp only [dotChar, Bool.not_eq_true']
  cases hl : isLineTerm c with
  | false => rfl
  | true =>
    exfalso
    simp only [isLineTerm, Bool.or_eq_true, beq_iff_eq] at hl
    rcases hl with ((rfl | rfl) | rfl) | rfl <;> simp [isJsSpace] at h

theorem dropWhile_all_false {α} (q : α → Bool) (l : List α)
    (h : ∀ a ∈ l, q a = false) : l.dropWhile q = l := by
  induction l with
  | nil => rfl
  | cons a as ih =>
    simp [List.dropWhile_cons, h a (by simp)]

theorem noWhitespace_mem {s : String} (h : noWhitespace s = true) :
    ∀ c ∈ s.data, isJsSpace c = false := by
  intro c hc
  have := (List.all_eq_true.mp h) c hc
  simpa using this

theorem jsTrim_eq_self_of_noWs {s : String} (h : noWhitespace s = true) :
    jsTrim s = s := by
  have h1 := noWhitespace_mem h
  unfold jsTrim
  rw [dropWhile_all_false _ _ h1,
    dropWhile_all_false _ _ (fun a ha => h1 a (List.mem_reverse.mp ha)),
    List.reverse_reverse, mk_data]

theorem optStr_some (s : String) : optStr (some s) = s := rfl

theorem jsOr_of_ne {a : String} (h : a ≠ "") (b : String) : jsOr a b = a :=
  if_neg h

theorem jsOr_empty (b : String) : jsOr "" b = b := rfl

/-!
### Claim C10 — provider-produced records normalize back to their payload
-/

/-- C10: for a mime `m` (non-empty, lower-case, free of `;`/`,`/whitespace)
and a payload `s` (non-empty, free of `,`/whitespace), the record shape both
provider adapters produce — `imageUrl = data:m;base64,s` alongside
`base64Data = s` and `mimeType = m` — normalizes back to exactly
`{mimeType := m, base64Data := s}`, and so does the degraded record in which
only `imageUrl` survived persistence. -/
theorem getImagePayload_provider_roundtrip (m s : String)
    (hm_ne : m ≠ "")
    (hm_lower : lowerStr m = m)
    (hm_chars : ∀ c ∈ m.data, notSemiComma c = true ∧ isJsSpace c = false)
    (hs_ne : s ≠ "")
    (hs_chars : ∀ c ∈ s.data, c ≠ ',' ∧ isJsSpace c = false) :
    getImagePayload { imageUrl := some ("data:" ++ m ++ ";base64," ++ s),
                      base64Data := some s, mimeType := some m }
      = some { mimeType := m, base64Data := s } ∧
    getImagePayload { imageUrl := some ("data:" ++ m ++ ";base64," ++ s) }
      = some { mimeType := m, base64Data := s } := by
  have hs_noWs : noWhitespace s = true := by
    unfold noWhitespace
    rw [List.all_eq_true]
    intro c hc
    simp [(hs_chars c hc).2]
  have hm_noWs : noWhitespace m = true := by
    unfold noWhitespace
    rw [List.all_eq_true]
    intro c hc
    simp [(hm_chars c hc).2]
  have hparse_s : parseDataUrl s = none :=
    parseDataUrl_none_of_no_comma s (fun c hc => (hs_chars c hc).1)
  have hurl_data : ("data:" ++ m ++ ";base64," ++ s).data
      = "data:".data ++
          (m.data ++ (';' :: 'b' :: 'a' :: 's' :: 'e' :: '6' :: '4' :: ','
            :: s.data)) := by
    rw [data_append, data_append, data_append, List.append_assoc,
      List.append_assoc]
    rfl
  have hurl_noWs : noWhitespace ("data:" ++ m ++ ";base64," ++ s) = true := by
    unfold noWhitespace
    rw [List.all_eq_true]
    intro c hc
    rw [hurl_data] at hc
    rcases List.mem_append.mp hc with hc1 | hc2
    · fin_cases hc1 <;> decide
    · rcases List.mem_append.mp hc2 with hc3 | hc4
      · simp [(hm_chars c hc3).2]
      · rcases List.mem_cons.mp hc4 with rfl | hc5
        · decide
        · rcases List.mem_cons.mp hc5 with rfl | hc6
          · decide
          · rcases List.mem_cons.mp hc6 with rfl | hc7
            · decide
            · rcases List.mem_cons.mp hc7 with rfl | hc8
              · decide
              · rcases List.mem_cons.mp hc8 with rfl | hc9
                · decide
                · rcases List.mem_cons.mp hc9 with rfl | hc10
                  · decide
                  · rcases List.mem_cons.mp hc10 with rfl | hc11
                    · decide
                    · rcases List.mem_cons.mp hc11 with rfl | hc12
                      · decide
                      · simp [(hs_chars c hc12).2]
  have hparse_url : parseDataUrl ("data:" ++ m ++ ";base64," ++ s)
      = some { mimeType := m, base64Data := s } :=
    parseDataUrl_wellformed_roundtrip m s (fun c hc => (hm_chars c hc).1)
      hm_lower hs_ne
      (fun c hc => dotChar_of_not_space (hs_chars c hc).2)
  set U : String := "data:" ++ m ++ ";base64," ++ s with hU
  constructor
  · have hb64 : collectRawBase64
        { imageUrl := some U, base64Data := some s, mimeType := some m }
        = s := by
      unfold collectRawBase64
      rw [optStr_some, jsOr_of_ne hs_ne, jsTrim_eq_self_of_noWs hs_noWs]
    have hmime : collectRawMime
        { imageUrl := some U, base64Data := some s, mimeType := some m }
        = m := by
      unfold collectRawMime
      rw [optStr_some, jsOr_of_ne hm_ne, jsTrim_eq_self_of_noWs hm_noWs,
        hm_lower]
    simp only [getImagePayload, hb64, hmime, hparse_s, if_neg hs_ne,
      jsOr_of_ne hm_ne]
  · have hb64 : collectRawBase64 { imageUrl := some U } = "" := rfl
    have hmime : collectRawMime { imageUrl := some U } = "" := rfl
    have hurl_trim : jsTrim (optStr (some U)) = U := by
      rw [optStr_some, jsTrim_eq_self_of_noWs hurl_noWs]
    simp only [getImagePayload, hb64, hmime, parseDataUrl_empty, hurl_trim,
      hparse_url, if_neg hs_ne, jsOr_of_ne hm_ne]
    simp [jsOr_of_ne hm_ne]

/-- Witness for C10: the concrete provider record with mime `image/png` and
payload `QUJD` normalizes back to `{image/png, QUJD}` in both shapes. -/
theorem getImagePayload_provider_roundtrip_witness :
    getImagePayload
      { imageUrl := some ("data:" ++ "image/png" ++ ";base64," ++ "QUJD"),
        base64Data := some "QUJD", mimeType := some "image/png" }
      = some { mimeType := "image/png", base64Data := "QUJD" } ∧
    getImagePayload
      { imageUrl := some ("data:" ++ "image/png" ++ ";base64," ++ "QUJD") }
      = some { mimeType := "image/png", base64Data := "QUJD" } :=
  getImagePayload_provider_roundtrip "image/png" "QUJD" (by decide) (by decide)
    (by decide) (by decide) (by decide)

theorem lowerStr_empty : lowerStr "" = "" := rfl

theorem b64Digit_not_space (n : Nat) : isJsSpace (b64Digit n) = false := by
  have halpha : ∀ c ∈ b64Alphabet, isJsSpace c = false := by decide
  unfold b64Digit
  by_cases h : n < b64Alphabet.length
  · rw [List.getD_eq_getElem b64Alphabet 'A' h]
    exact halpha _ (List.getElem_mem h)
  · rw [List.getD_eq_default b64Alphabet 'A' (Nat.le_of_not_lt h)]
    decide

theorem encodeB64Chars_not_space :
    ∀ bs : List Nat, ∀ c ∈ encodeB64Chars bs, isJsSpace c = false
  | [] => by simp [encodeB64Chars]
  | [a] => by
    intro c hc
    simp only [encodeB64Chars, List.mem_cons, List.not_mem_nil, or_false]
      at hc
    rcases hc with rfl | rfl | rfl | rfl
    · exact b64Digit_not_space _
    · exact b64Digit_not_space _
    · decide
    · decide
  | [a, b] => by
    intro c hc
    simp only [encodeB64Chars, List.mem_cons, List.not_mem_nil, or_false]
      at hc
    rcases hc with rfl | rfl | rfl | rfl
    · exact b64Digit_not_space _
    · exact b64Digit_not_space _
    · exact b64Digit_not_space _
    · decide
  | a :: b :: c' :: rest => by
    intro c hc
    simp only [encodeB64Chars, List.mem_cons] at hc
    rcases hc with rfl | rfl | rfl | rfl | hmem
    · exact b64Digit_not_space _
    · exact b64Digit_not_space _
    · exact b64Digit_not_space _
    · exact b64Digit_not_space _
    · exact encodeB64Chars_not_space rest c hmem

theorem encodeBase64_ne_empty {bs : List Nat} (h : bs ≠ []) :
    encodeBase64 bs ≠ "" := by
  rw [encodeBase64, mk_ne_empty_iff]
  match bs, h with
  | [a], _ => simp [encodeB64Chars]
  | [a, b], _ => simp [encodeB64Chars]
  | a :: b :: c :: rest, _ => simp [encodeB64Chars]

theorem stripWs_eq_self {s : String}
    (h : ∀ c ∈ s.data, isJsSpace c = false) : stripWs s = s := by
  unfold stripWs
  rw [List.filter_eq_self.mpr (fun a ha => by simp [h a ha]), mk_data]

theorem noWhitespace_stripWs (s : String) :
    noWhitespace (stripWs s) = true := by
  unfold noWhitespace stripWs
  rw [List.all_eq_true]
  intro c hc
  exact (List.mem_filter.mp hc).2

theorem jsOr_png_ne (m : String) : jsOr m "image/png" ≠ "" := by
  unfold jsOr
  split
  · decide
  · assumption

theorem finishResolve_ok {b m : String} {p : ImagePayload}
    (h : finishResolve b m = .ok p) :
    noWhitespace p.base64Data = true ∧ p.mimeType ≠ "" := by
  unfold finishResolve at h
  split at h
  · exact absurd h (by simp)
  · cases h
    exact ⟨noWhitespace_stripWs b, jsOr_png_ne m⟩

/-!
### Claim C4 — no base64 and no URL fails terminally with zero fetches
-/

/-- C4: when both `base64Data` and `imageUrl` are empty or absent, the
resolver fails with the SourceUnavailableError and performs zero fetches,
whatever the network would have answered. -/
theorem resolver_no_source_sourceUnavailable (img : GeneratedImage)
    (resp : Option FetchResponse)
    (hb : optStr img.base64Data = "")
    (hu : optStr img.imageUrl = "") :
    resolveImageInputForRefinement img resp
      = (.error .sourceUnavailable, 0) := by
  simp only [resolveImageInputForRefinement, hb, hu, jsTrim_empty,
    parseDataUrl_empty]
  simp [finishResolve]

/-- Witness for C4: the empty record fails terminally with zero fetches even
when the network would have answered successfully. -/
theorem resolver_no_source_sourceUnavailable_witness :
    resolveImageInputForRefinement {}
        (some { ok := true, status := 200, bodyBytes := [1], blobType := "image/png" })
      = (.error .sourceUnavailable, 0) :=
  resolver_no_source_sourceUnavailable {} _ rfl rfl

/-!
### Claim C5 — remote-URL-only source resolves through exactly one fetch
-/

/-- C5: for a source holding only a non-data-URL `imageUrl`, when the fetch
succeeds (ok response, non-empty body, non-empty declared content type —
browsers expose `Blob.type` already lower-cased, hence the lower-case
hypothesis), the resolver performs exactly one fetch and returns the
re-encoded body with the response's declared content type. -/
theorem resolver_remote_url_single_fetch (img : GeneratedImage)
    (r : FetchResponse)
    (hb : optStr img.base64Data = "")
    (hm : optStr img.mimeType = "")
    (hu_ne : jsTrim (optStr img.imageUrl) ≠ "")
    (hu_parse : parseDataUrl (jsTrim (optStr img.imageUrl)) = none)
    (hok : r.ok = true)
    (hbody : r.bodyBytes ≠ [])
    (htype_ne : r.blobType ≠ "")
    (htype_lower : lowerStr r.blobType = r.blobType) :
    resolveImageInputForRefinement img (some r)
      = (.ok { mimeType := r.blobType,
               base64Data := encodeBase64 r.bodyBytes }, 1) := by
  have henc := encodeBase64_ne_empty hbody
  have hfetch : fetchImageAsBase64 (some r)
      = .ok { mimeType := r.blobType, base64Data := encodeBase64 r.bodyBytes } := by
    simp only [fetchImageAsBase64, hok, Bool.not_true, if_neg henc]
    rw [jsOr_of_ne htype_ne, htype_lower]
    simp
  have hfin : finishResolve (encodeBase64 r.bodyBytes) r.blobType
      = .ok { mimeType := r.blobType, base64Data := encodeBase64 r.bodyBytes } := by
    unfold finishResolve
    rw [if_neg henc, jsOr_of_ne htype_ne,
      stripWs_eq_self (s := encodeBase64 r.bodyBytes)
        (fun c hc => encodeB64Chars_not_space r.bodyBytes c hc)]
  simp only [resolveImageInputForRefinement, hb, hm, jsTrim_empty,
    parseDataUrl_empty, lowerStr_empty, hu_parse, hfetch]
  simp only [hu_ne, ne_eq, not_false_eq_true, and_true, true_or, or_self,
    if_true, jsOr_empty]
  simp [hfin, jsOr_empty]

/-- Witness for C5: a record with only `imageUrl = "https://x/y"` and a
successful png fetch of three bytes resolves to that content type and body
in exactly one fetch. -/
theorem resolver_remote_url_single_fetch_witness :
    resolveImageInputForRefinement { imageUrl := some "https://x/y" }
        (some { ok := true, status := 200, bodyBytes := [1, 2, 3],
                blobType := "image/png" })
      = (.ok { mimeType := "image/png", base64Data := encodeBase64 [1, 2, 3] }, 1) :=
  resolver_remote_url_single_fetch { imageUrl := some "https://x/y" }
    { ok := true, status := 200, bodyBytes := [1, 2, 3], blobType := "image/png" }
    rfl rfl (by decide) (by decide) rfl (by decide) (by decide) (by decide)

/-!
### Claim C3 — the canonical-payload invariant
-/

/-- Counterexample for C3 as stated: `getImagePayload` never strips internal
whitespace (only the resolver does, and `trim` only removes it at the ends),
so the non-null result for `{base64Data: "A B"}` carries whitespace inside
its `base64Data`. -/
theorem getImagePayload_keeps_inner_whitespace :
    getImagePayload { base64Data := some "A B" }
      = some { mimeType := "image/png", base64Data := "A B" } ∧
    noWhitespace "A B" = false :=
  ⟨by decide, by decide⟩

theorem jsOr_jsOr_png_ne (a b : String) : jsOr a (jsOr b "image/png") ≠ "" := by
  unfold jsOr
  split
  · split
    · decide
    · assumption
  · assumption

/-- C3 (amended): every successful resolver result satisfies the full
invariant — whitespace-free `base64Data` and non-empty `mimeType`, the
latter `image/png` when the source determines no mime type (no mime field,
no data-URL-wrapped base64, no imageUrl); every non-null normalizer result
has non-empty `mimeType` and non-empty `base64Data`, though the normalizer
may retain internal whitespace in `base64Data`. -/
theorem canonical_payload_invariant :
    (∀ (img : GeneratedImage) (resp : Option FetchResponse)
       (p : ImagePayload) (n : Nat),
       resolveImageInputForRefinement img resp = (.ok p, n) →
       noWhitespace p.base64Data = true ∧ p.mimeType ≠ "") ∧
    (∀ (img : GeneratedImage) (resp : Option FetchResponse)
       (p : ImagePayload) (n : Nat),
       resolveImageInputForRefinement img resp = (.ok p, n) →
       optStr img.mimeType = "" →
       parseDataUrl (jsTrim (optStr img.base64Data)) = none →
       jsTrim (optStr img.imageUrl) = "" →
       p.mimeType = "image/png") ∧
    (∀ (src : ImageSource) (q : ImagePayload),
       getImagePayload src = some q →
       q.mimeType ≠ "" ∧ q.base64Data ≠ "") := by
  refine ⟨?_, ?_, ?_⟩
  · intro img resp p n h
    simp only [resolveImageInputForRefinement] at h
    split at h
    · split at h
      · injection h with h1 h2
        exact finishResolve_ok h1
      · split at h
        · injection h with h1 h2
          exact absurd h1 (by simp)
        · injection h with h1 h2
          exact finishResolve_ok h1
    · injection h with h1 h2
      exact finishResolve_ok h1
  · intro img resp p n h hm hbp hu
    simp only [resolveImageInputForRefinement, hm, hbp, hu, jsTrim_empty,
      lowerStr_empty] at h
    simp only [ne_eq, not_true_eq_false, and_false, if_false] at h
    unfold finishResolve at h
    split at h
    · injection h with h1 h2
      exact absurd h1 (by simp)
    · injection h with h1 h2
      injection h1 with h1
      rw [← h1]
      rfl
  · intro src q h
    simp only [getImagePayload] at h
    split at h
    · rename_i pr heq
      injection h with h1
      have hpr : pr.base64Data ≠ "" := by
        split at heq
        · rename_i pr' hparse
          split at heq
          · exact absurd heq (by simp)
          · rename_i hne
            injection heq with heq2
            rw [← heq2]
            exact hne
        · exact absurd heq (by simp)
      rw [← h1]
      exact ⟨jsOr_jsOr_png_ne _ _, hpr⟩
    · split at h
      · split at h
        · rename_i pu hparse
          split at h
          · exact absurd h (by simp)
          · rename_i hne
            injection h with h1
            rw [← h1]
            exact ⟨jsOr_jsOr_png_ne _ _, hne⟩
        · exact absurd h (by simp)
      · rename_i hne
        injection h with h1
        rw [← h1]
        exact ⟨jsOr_png_ne _, hne⟩

/-- Witness for C3 (amended): the resolver on a bare data-URL-in-base64Data
record yields a whitespace-free payload with non-empty mime; a mime-less,
URL-less record resolves to `image/png`; and the normalizer's non-null
result on a bare payload has non-empty fields. -/
theorem canonical_payload_invariant_witness :
    (noWhitespace (ImagePayload.base64Data
        { mimeType := "image/webp", base64Data := "QUJD" }) = true ∧
      ImagePayload.mimeType
        { mimeType := "image/webp", base64Data := "QUJD" } ≠ "") ∧
    ImagePayload.mimeType { mimeType := "image/png", base64Data := "Zm9v" }
      = "image/png" ∧
    (ImagePayload.mimeType { mimeType := "image/png", base64Data := "Zm9v" }
        ≠ "" ∧
      ImagePayload.base64Data { mimeType := "image/png", base64Data := "Zm9v" }
        ≠ "") :=
  ⟨canonical_payload_invariant.1
      { base64Data := some " data:image/webp;base64,QUJD " } none
      { mimeType := "image/webp", base64Data := "QUJD" } 0 (by rfl),
    canonical_payload_invariant.2.1 { base64Data := some "Zm9v" } none
      { mimeType := "image/png", base64Data := "Zm9v" } 0 (by rfl) (by rfl)
      (by decide) (by rfl),
    canonical_payload_invariant.2.2 { base64Data := some "Zm9v" }
      { mimeType := "image/png", base64Data := "Zm9v" } (by decide)⟩

/-!
### Claim C8 — provider-B response extraction
-/

/-- C8: for every response with a non-empty candidate list, the adapter
returns the image built from the first content part carrying inline binary
data (mime defaulting to `image/png`, `imageUrl` rebuilt as a data URL); if
no part carries inline data but some part carries non-empty text, it fails
with the diagnostic error surfacing the first such text; if neither exists,
it fails with the protocol-violation error. -/
theorem extractImageFromResponse_cases (c0 : Candidate) (cs : List Candidate) :
    (∀ d : InlineData, firstInline c0.content.parts = some d →
      extractImageFromResponse { candidates := c0 :: cs }
        = .ok { imageUrl := some ("data:" ++ jsOr (optStr d.mimeType)
                  "image/png" ++ ";base64," ++ d.data),
                base64Data := some d.data,
                mimeType := some (jsOr (optStr d.mimeType) "image/png") }) ∧
    (firstInline c0.content.parts = none →
      ∀ t : String, firstTruthyText c0.content.parts = some t →
      extractImageFromResponse { candidates := c0 :: cs }
        = .error (.textInstead t)) ∧
    (firstInline c0.content.parts = none →
      firstTruthyText c0.content.parts = none →
      extractImageFromResponse { candidates := c0 :: cs }
        = .error .noImageData) := by
  refine ⟨?_, ?_, ?_⟩
  · intro d hd
    simp only [extractImageFromResponse, hd]
  · intro hd t ht
    simp only [extractImageFromResponse, hd, ht]
  · intro hd ht
    simp only [extractImageFromResponse, hd, ht]

/-- Witness for C8: a single candidate whose only part carries the text
`Request blocked.` produces the diagnostic error surfacing that text. -/
theorem extractImageFromResponse_cases_witness :
    extractImageFromResponse
        { candidates := [{ content :=
          { parts := [{ text := some "Request blocked." }] } }] }
      = .error (.textInstead "Request blocked.") :=
  (extractImageFromResponse_cases
      { content := { parts := [{ text := some "Request blocked." }] } } []).2.1
    (by rfl) "Request blocked." (by rfl)

end Brandoit
